import Mathlib

/-!
Shallow embedding of the bpf-api crate (user-space BPF interface) in Lean 4,
with theorems checking the natural-language specification against the code.

Source files embedded:
  * src/collections/ringbuffer.rs  (RingMeta, RingBuffer)
  * src/platform/linux/map.rs      (Map, mapping cache)
  * src/platform/linux/prog.rs     (Program::create)
  * src/platform/linux/probes.rs   (Probe attach/detach)
  * src/platform/linux/perf.rs     (get_pmu_typeid, perf_event_open_by_name)
  * src/platform/linux/bpf.rs      (CallBpf::call_bpf)
  * src/platform/linux/x86_64/syscalls.rs (bpf)

Kernel-side effects (syscalls, mmap, file reads) are modelled as explicit
oracle parameters; machine integers are Nat/Int with explicit `% 2 ^ 32`
where the code truncates.
-/

namespace BpfApi

/-- Mirror of `Error` in src/error.rs (the variant set used by the embedded
modules; `mutexPoisoned` appears in src/platform/linux/map.rs). The payloads
irrelevant to the claims (io error contents, parse error contents) are
dropped. -/
inductive Error where
  | systemError (n : Int)
  | ioError
  | parseIntError
  | notImplemented
  | invalidArgument
  | outOfRange
  | mutexPoisoned
  deriving DecidableEq, Repr

/-! ## RingMeta (src/collections/ringbuffer.rs lines 10-45) -/

/-- Mirror of `RingMeta`: consumer position, producer position, capacity,
all Rust `usize` values read from the mapped metadata pages. -/
structure RingMeta where
  cons_pos : Nat
  prod_pos : Nat
  capacity : Nat
  deriving DecidableEq, Repr

/-- `RingMeta::len`: `if self.cons_pos <= self.prod_pos { self.prod_pos -
self.cons_pos } else { self.capacity - self.cons_pos + self.prod_pos + 1 }`. -/
def RingMeta.len (m : RingMeta) : Nat :=
  if m.cons_pos ≤ m.prod_pos then m.prod_pos - m.cons_pos
  else m.capacity - m.cons_pos + m.prod_pos + 1

/-- `RingMeta::is_empty`. -/
def RingMeta.is_empty (m : RingMeta) : Bool :=
  m.len == 0

/-- `RingMeta::get_cons_pos`: `self.cons_pos % self.capacity`. -/
def RingMeta.get_cons_pos (m : RingMeta) : Nat :=
  m.cons_pos % m.capacity

/-- `RingMeta::consume`: clamps `size` to `len()`, then sets
`cons_pos = (cons_pos + size) % capacity` and returns the new position. -/
def RingMeta.consume (m : RingMeta) (size : Nat) : RingMeta × Nat :=
  let size' := if size > m.len then m.len else size
  let c := (m.cons_pos + size') % m.capacity
  ({ m with cons_pos := c }, c)

/-! ## RingBuffer capacity rounding (src/collections/ringbuffer.rs lines 80-96) -/

/-- `RingBuffer::PAGE_SIZE`. -/
def PAGE_SIZE : Nat := 4096

/-- The capacity computed by `RingBuffer::with_capacity` before the map is
created: `none` is the `Err(Error::InvalidArgument)` path for zero, otherwise
pages = ceil-div by page size, then the bit-smear round-up to the next power
of two, then multiply back by the page size. The argument is a Rust `u32`,
so values are below `2 ^ 32` and none of the `usize` arithmetic overflows. -/
def with_capacity_capacity (min_capacity : Nat) : Option Nat :=
  if min_capacity = 0 then none
  else
    let pages := (min_capacity + (PAGE_SIZE - 1)) / PAGE_SIZE
    let c0 := pages - 1
    let c1 := c0 ||| (c0 >>> 1)
    let c2 := c1 ||| (c1 >>> 2)
    let c3 := c2 ||| (c2 >>> 4)
    let c4 := c3 ||| (c3 >>> 8)
    let c5 := c4 ||| (c4 >>> 16)
    some ((c5 + 1) * PAGE_SIZE)

/-! ## Byte-level ring buffer state (src/collections/ringbuffer.rs lines 184-226)

`RingBuffer::get_meta` reads the first four bytes of the consumer and
producer pages with `NativeEndian::read_u32` (little-endian on x86_64);
`RingBuffer::consume` writes the new position back with
`NativeEndian::write_u32`. Pages are modelled as byte lists. -/

/-- `NativeEndian::read_u32(&buf[0..4])` on x86_64 (little-endian). The pages
are PAGE_SIZE bytes long, so the partial patterns never arise on real states;
they default to 0. -/
def readU32LE : List Nat → Nat
  | b0 :: b1 :: b2 :: b3 :: _ => b0 + b1 * 256 + b2 * 65536 + b3 * 16777216
  | _ => 0

/-- `NativeEndian::write_u32(&mut buf[0..4], v)` on x86_64: replaces the first
four bytes with the little-endian encoding of `v % 2 ^ 32`. -/
def writeU32LE (v : Nat) (bs : List Nat) : List Nat :=
  let v := v % 2 ^ 32
  v % 256 :: v / 256 % 256 :: v / 65536 % 256 :: v / 16777216 % 256 :: bs.drop 4

/-- The observable state of a `RingBuffer`: its capacity and the contents of
the two mapped metadata pages (the cached mappings are stable for the life of
the map, per `Map::get_map`). -/
structure RingBufferState where
  capacity : Nat
  consPage : List Nat
  prodPage : List Nat
  deriving DecidableEq, Repr

/-- `RingBuffer::get_meta`: reads the consumer and producer positions from the
first four bytes of the respective pages. -/
def RingBufferState.get_meta (rb : RingBufferState) : RingMeta :=
  { cons_pos := readU32LE rb.consPage
    prod_pos := readU32LE rb.prodPage
    capacity := rb.capacity }

/-- `RingBuffer::len`. -/
def RingBufferState.len (rb : RingBufferState) : Nat :=
  rb.get_meta.len

/-- `RingBuffer::consume`: computes the new position via `RingMeta::consume`
and publishes it into the writable consumer-position mapping as a u32. -/
def RingBufferState.consume (rb : RingBufferState) (size : Nat) : RingBufferState :=
  let new_pos := (rb.get_meta.consume size).2
  { rb with consPage := writeU32LE new_pos rb.consPage }

/-! ## Map and the mapping cache (src/platform/linux/map.rs lines 77-295) -/

/-- Mirror of `MmapProtection` (only the variants the crate requests). -/
inductive MmapProtection where
  | read
  | write
  deriving DecidableEq, Repr

/-- Mirror of `MmapFlags` (the crate only ever requests `Shared`). -/
inductive MmapFlags where
  | shared
  deriving DecidableEq, Repr

/-- Mirror of `MappedArea`, the mapping-cache key. -/
structure MappedArea where
  offset : Nat
  length : Nat
  prot : MmapProtection
  flags : MmapFlags
  deriving DecidableEq, Repr

/-- `MAP_FAILED = isize::min_value()`. -/
def MAP_FAILED : Int := -(2 ^ 63)

/-- First-match association lookup, mirroring `HashMap::get` on the models
(inserts never leave duplicate keys). -/
def assocLookup {α β : Type} [DecidableEq α] : List (α × β) → α → Option β
  | [], _ => none
  | (a, b) :: rest, k => if a = k then some b else assocLookup rest k

/-- Mirror of the `Map` state the claims need: the descriptor, the poisoned
flag of the `Mutex` around the cache, and the cache contents
(`HashMap<MappedArea, usize>`). -/
structure MapState where
  fd : Nat
  poisoned : Bool
  mapped_areas : List (MappedArea × Nat)

/-- `i as usize` for `i : isize`. -/
def usizeOfIsize (i : Int) : Nat :=
  (i % 2 ^ 64).toNat

/-- Common body of `Map::get_map` (prot = Read) and `Map::get_map_mut`
(prot = Write); the two functions are textual duplicates in the source apart
from the protection and slice mutability. The kernel's `mmap` is an oracle
from the requested area to its raw return; the result carries the new state,
the base address or error, and the number of `mmap` invocations performed. -/
def get_map_generic (prot : MmapProtection) (mmapOracle : MappedArea → Int)
    (m : MapState) (sizeT offset count : Nat) :
    MapState × Except Error Nat × Nat :=
  let length := sizeT * count
  let area : MappedArea := ⟨offset, length, prot, .shared⟩
  if m.poisoned then (m, .error .mutexPoisoned, 0)
  else
    match assocLookup m.mapped_areas area with
    | some buf => (m, .ok buf, 0)
    | none =>
      let buf := mmapOracle area
      if buf = MAP_FAILED then (m, .error (.systemError buf), 1)
      else ({ m with mapped_areas := (area, usizeOfIsize buf) :: m.mapped_areas },
            .ok (usizeOfIsize buf), 1)

/-- `Map::get_map::<T>` with `size_of::<T>() = sizeT`. -/
def Map.get_map (mmapOracle : MappedArea → Int) (m : MapState)
    (sizeT offset count : Nat) : MapState × Except Error Nat × Nat :=
  get_map_generic .read mmapOracle m sizeT offset count

/-- `Map::get_map_mut::<T>` with `size_of::<T>() = sizeT`. -/
def Map.get_map_mut (mmapOracle : MappedArea → Int) (m : MapState)
    (sizeT offset count : Nat) : MapState × Except Error Nat × Nat :=
  get_map_generic .write mmapOracle m sizeT offset count

/-! ## UTF-8 validation and Program::create (src/platform/linux/prog.rs lines 107-162)

`Program::create` decodes the verifier log buffer with `std::str::from_utf8`,
which succeeds exactly on well-formed UTF-8 (RFC 3629); `utf8Valid` is that
well-formedness predicate over the buffer's bytes. -/

/-- A UTF-8 continuation byte: `0x80 ..= 0xBF`. -/
def isCont (b : Nat) : Bool :=
  0x80 ≤ b && b ≤ 0xBF

/-- Validity of a byte sequence as UTF-8, matching `std::str::from_utf8`
(which accepts exactly the RFC 3629 well-formed sequences: no surrogates,
no over-long encodings, nothing above U+10FFFF). -/
def utf8Valid : List Nat → Bool
  | [] => true
  | b :: rest =>
    if b ≤ 0x7F then utf8Valid rest
    else if 0xC2 ≤ b && b ≤ 0xDF then
      match rest with
      | c1 :: rest2 => isCont c1 && utf8Valid rest2
      | [] => false
    else if b = 0xE0 then
      match rest with
      | c1 :: c2 :: rest2 => (0xA0 ≤ c1 && c1 ≤ 0xBF) && isCont c2 && utf8Valid rest2
      | _ => false
    else if (0xE1 ≤ b && b ≤ 0xEC) || b = 0xEE || b = 0xEF then
      match rest with
      | c1 :: c2 :: rest2 => isCont c1 && isCont c2 && utf8Valid rest2
      | _ => false
    else if b = 0xED then
      match rest with
      | c1 :: c2 :: rest2 => (0x80 ≤ c1 && c1 ≤ 0x9F) && isCont c2 && utf8Valid rest2
      | _ => false
    else if b = 0xF0 then
      match rest with
      | c1 :: c2 :: c3 :: rest2 =>
        (0x90 ≤ c1 && c1 ≤ 0xBF) && isCont c2 && isCont c3 && utf8Valid rest2
      | _ => false
    else if 0xF1 ≤ b && b ≤ 0xF3 then
      match rest with
      | c1 :: c2 :: c3 :: rest2 => isCont c1 && isCont c2 && isCont c3 && utf8Valid rest2
      | _ => false
    else if b = 0xF4 then
      match rest with
      | c1 :: c2 :: c3 :: rest2 =>
        (0x80 ≤ c1 && c1 ≤ 0x8F) && isCont c2 && isCont c3 && utf8Valid rest2
      | _ => false
    else false

/-- `Program::create`, projected onto the behaviour the claims concern.
`loadResult` is the raw signed result of the `BPF_PROG_LOAD` syscall (routed
through `CallBpf::call_bpf`: negative means error); `logBuf` is the contents
of the 1 MiB verifier-log buffer after the call; `sinkSupplied` says whether a
`log_out` writer was passed. Returns the call's result and what (if anything)
is written to the sink: the source writes the buffer only when
`std::str::from_utf8(&buf)` succeeds AND a sink is present, and does so
before inspecting the load result. -/
def Program.create (loadResult : Int) (logBuf : List Nat) (sinkSupplied : Bool) :
    Except Error Nat × Option (List Nat) :=
  let written := if sinkSupplied && utf8Valid logBuf then some logBuf else none
  let result : Except Error Nat :=
    if loadResult < 0 then .error (.systemError loadResult)
    else .ok ((loadResult % 2 ^ 32).toNat)
  (result, written)

/-! ## The bpf() gateway (src/platform/linux/x86_64/syscalls.rs lines 150-174
and src/platform/linux/bpf.rs lines 104-113) -/

/-- `BPF_ATTR_SIZE`. -/
def BPF_ATTR_SIZE : Nat := 120

/-- The buffer `bpf()` builds before the syscall: `none` models the
`panic!` branch for records larger than `BPF_ATTR_SIZE`; otherwise the
record's bytes are copied into the prefix of a zero-initialized
`BPF_ATTR_SIZE`-byte buffer. -/
def bpf_syscall_buffer (attr : List Nat) : Option (List Nat) :=
  if attr.length > BPF_ATTR_SIZE then none
  else some (attr ++ List.replicate (BPF_ATTR_SIZE - attr.length) 0)

/-- `bpf(cmd, attr, size)`: builds the padded buffer and invokes the raw
syscall (an oracle from the final buffer to the raw signed result). -/
def bpf (syscall : List Nat → Int) (attr : List Nat) : Option Int :=
  (bpf_syscall_buffer attr).map syscall

/-- `CallBpf::call_bpf`: a negative raw result becomes
`Err(Error::SystemError(r))`; otherwise `Ok(r as u32)`. -/
def call_bpf (syscall : List Nat → Int) (attr : List Nat) : Option (Except Error Nat) :=
  (bpf syscall attr).map fun r =>
    if r < 0 then .error (.systemError r) else .ok ((r % 2 ^ 32).toNat)

/-! ## repr(C) attribute-record sizes (C9)

Rust `#[repr(C, align(8))]` layout: fields are placed in order at offsets
rounded up to each field's alignment, and the struct size is the end offset
rounded up to the struct alignment (the maximum of the field alignments and
the explicit `align(8)`). Fields are given as (size, alignment) pairs. -/

/-- Round `off` up to a multiple of `a`. -/
def alignUp (off a : Nat) : Nat :=
  (off + a - 1) / a * a

/-- Size of a `repr(C, align(n))` struct from its field (size, align) list. -/
def cStructSize (structAlign : Nat) (fields : List (Nat × Nat)) : Nat :=
  let off := fields.foldl (fun off f => alignUp off f.2 + f.1) 0
  let a := fields.foldl (fun m f => max m f.2) structAlign
  alignUp off a

/-- Fields of `MapOperationAttr` (map.rs lines 20-27): u32, u64, u64, u64. -/
def mapOperationAttrFields : List (Nat × Nat) := [(4, 4), (8, 8), (8, 8), (8, 8)]

/-- Fields of `MapAttr` (map.rs lines 31-38): four u32. -/
def mapAttrFields : List (Nat × Nat) := [(4, 4), (4, 4), (4, 4), (4, 4)]

/-- Fields of `BpfProgramAttr` (prog.rs lines 7-31): u32, u32, u64, u64,
u32, u32, u64, u32, u32, [u8; 16], u32, u32, u32, u32, u64, u32, u32, u64,
u32, u32. -/
def bpfProgramAttrFields : List (Nat × Nat) :=
  [(4, 4), (4, 4), (8, 8), (8, 8), (4, 4), (4, 4), (8, 8), (4, 4), (4, 4),
   (16, 1), (4, 4), (4, 4), (4, 4), (4, 4), (8, 8), (4, 4), (4, 4), (8, 8),
   (4, 4), (4, 4)]

/-- Fields of `BpfRawTracepointOpenAttr` (probes.rs lines 9-14): u64, u32. -/
def bpfRawTracepointOpenAttrFields : List (Nat × Nat) := [(8, 8), (4, 4)]

/-- `size_of::<MapOperationAttr>()`. -/
def sizeOfMapOperationAttr : Nat := cStructSize 8 mapOperationAttrFields

/-- `size_of::<MapAttr>()`. -/
def sizeOfMapAttr : Nat := cStructSize 8 mapAttrFields

/-- `size_of::<BpfProgramAttr>()`. -/
def sizeOfBpfProgramAttr : Nat := cStructSize 8 bpfProgramAttrFields

/-- `size_of::<BpfRawTracepointOpenAttr>()`. -/
def sizeOfBpfRawTracepointOpenAttr : Nat := cStructSize 8 bpfRawTracepointOpenAttrFields

/-! ## PMU lookup and perf event opening (src/platform/linux/perf.rs) -/

/-- `DYNAMIC_PMU_PATH_KPROBE`. Strings are modelled as character lists so
that everything evaluates inside the kernel. -/
def DYNAMIC_PMU_PATH_KPROBE : List Char := "/sys/bus/event_source/devices/".toList

/-- Rust `str::trim_end`: drop trailing whitespace. -/
def rustTrimEnd (s : List Char) : List Char :=
  (s.reverse.dropWhile Char.isWhitespace).reverse

/-- The value of a decimal digit string. -/
def digitsToNat (s : List Char) : Nat :=
  s.foldl (fun a c => a * 10 + (c.toNat - 48)) 0

/-- Rust `str::parse::<u32>` up to the error payload: a non-empty all-digit
string whose value fits in a u32. -/
def parseU32 (s : List Char) : Except Error Nat :=
  if s = [] then .error .parseIntError
  else if s.all Char.isDigit then
    if digitsToNat s < 2 ^ 32 then .ok (digitsToNat s) else .error .parseIntError
  else .error .parseIntError

/-- `get_pmu_typeid` (perf.rs lines 15-26): rejects names containing '/'
before building the path; otherwise reads
`/sys/bus/event_source/devices/<name>/type` through the `readFile` oracle
(`Err` models `read_to_string` failing with an io error) and parses the
trimmed contents as a u32. Also returns the list of paths read, so that
"no file is read" is an observable fact. -/
def get_pmu_typeid (readFile : List Char → Except Error (List Char)) (name : List Char) :
    Except Error Nat × List (List Char) :=
  if name.contains '/' then (.error .invalidArgument, [])
  else
    let path := DYNAMIC_PMU_PATH_KPROBE ++ name ++ "/type".toList
    match readFile path with
    | .error e => (.error e, [path])
    | .ok s => (parseU32 (rustTrimEnd s), [path])

/-- The per-CPU open loop inside `perf_event_open_by_name` (perf.rs lines
63-77): for each cpu index `i` in `[first, first + n)`, `openRes i` is the raw
result of `perf_event_open`; a negative result aborts with
`Err(Error::SystemError(r))`, otherwise `r as u32` is pushed. -/
def openLoop (openRes : Nat → Int) : Nat → Nat → Except Error (List Nat)
  | _, 0 => .ok []
  | first, n + 1 =>
    if openRes first < 0 then .error (.systemError (openRes first))
    else (openLoop openRes (first + 1) n).map
      (fun rest => (openRes first % 2 ^ 32).toNat :: rest)

/-- `perf_event_open_by_name` (perf.rs lines 52-80): resolves the PMU type
identifier for `kind`, then opens one event per available processor
(`ncpus = num_cpus::get()`). -/
def perf_event_open_by_name (readFile : List Char → Except Error (List Char))
    (kind : List Char) (ncpus : Nat) (openRes : Nat → Int) : Except Error (List Nat) :=
  match (get_pmu_typeid readFile kind).1 with
  | .error e => .error e
  | .ok _ => openLoop openRes 0 ncpus

/-! ## Probe attachment (src/platform/linux/probes.rs) -/

/-- One kernel interaction of the attach/enable phase, for stating that the
loop stops at the first failure. -/
inductive PerfCall where
  | attachCall (fd : Nat)
  | enableCall (fd : Nat)
  deriving DecidableEq, Repr

/-- The attach-then-enable loop of `Probe::attach_probe` (probes.rs lines
71-75): per descriptor, `perf_event_attach` then `perf_event_enable` (each an
oracle from the descriptor to the raw result, non-zero meaning failure as in
perf.rs lines 85-100); any failure returns the error immediately. Returns
the trace of kernel calls made and the result. -/
def attachEnableLoop (attachRes enableRes : Nat → Int) :
    List Nat → List PerfCall × Except Error (List Nat)
  | [] => ([], .ok [])
  | fd :: rest =>
    if attachRes fd ≠ 0 then
      ([.attachCall fd], .error (.systemError (attachRes fd)))
    else if enableRes fd ≠ 0 then
      ([.attachCall fd, .enableCall fd], .error (.systemError (enableRes fd)))
    else
      let (tr, r) := attachEnableLoop attachRes enableRes rest
      (.attachCall fd :: .enableCall fd :: tr, r.map (fd :: ·))

/-- The kernel-call trace the attach/enable loop produces on an
all-successful descriptor list: attach then enable, per descriptor, in
order. -/
def okTrace : List Nat → List PerfCall
  | [] => []
  | fd :: rest => .attachCall fd :: .enableCall fd :: okTrace rest

/-- The `attach_fds` table of a `Probe` (`HashMap<u32, Vec<u32>>`). -/
structure ProbeState where
  attach_fds : List (Nat × List Nat)
  deriving DecidableEq, Repr

/-- `HashMap::insert`: replaces any previous entry for the key. -/
def insertFds (k : Nat) (v : List Nat) (l : List (Nat × List Nat)) :
    List (Nat × List Nat) :=
  (k, v) :: l.filter (fun p => p.1 ≠ k)

/-- `Probe::attach_probe` (probes.rs lines 61-79): opens the per-CPU events,
runs the attach/enable loop, and only on full success records the descriptor
list under the program's descriptor. Returns the new state, the result, the
attach/enable call trace, and the list of descriptors that were opened by
`perf_event_open_by_name` during the attempt. -/
def Probe.attach_probe (p : ProbeState) (prog_fd : Nat)
    (readFile : List Char → Except Error (List Char)) (kind : List Char) (ncpus : Nat)
    (openRes attachRes enableRes : Nat → Int) :
    ProbeState × Except Error Unit × List PerfCall × List Nat :=
  match perf_event_open_by_name readFile kind ncpus openRes with
  | .error e => (p, .error e, [], [])
  | .ok perf_event_fds =>
    match attachEnableLoop attachRes enableRes perf_event_fds with
    | (tr, .error e) => (p, .error e, tr, perf_event_fds)
    | (tr, .ok fds) =>
      ({ attach_fds := insertFds prog_fd fds p.attach_fds }, .ok (), tr, perf_event_fds)

/-- `Probe::attach_raw_tracepoint` (probes.rs lines 81-106): one
`BPF_RAW_TRACEPOINT_OPEN` call through `call_bpf` (`callRes` is its raw
signed result); on success the single returned descriptor is recorded. -/
def Probe.attach_raw_tracepoint (p : ProbeState) (prog_fd : Nat) (callRes : Int) :
    ProbeState × Except Error Unit :=
  if callRes < 0 then (p, .error (.systemError callRes))
  else ({ attach_fds := insertFds prog_fd [(callRes % 2 ^ 32).toNat] p.attach_fds }, .ok ())

/-- `Probe::detach` (probes.rs lines 109-118): closes every descriptor
recorded for the program and removes the entry. Returns the new state and
the closed descriptors. -/
def Probe.detach (p : ProbeState) (prog_fd : Nat) : ProbeState × List Nat :=
  (⟨p.attach_fds.filter (fun q => q.1 ≠ prog_fd)⟩,
   (assocLookup p.attach_fds prog_fd).getD [])

/-- The descriptors `Probe::drop` closes (probes.rs lines 121-129): every
descriptor recorded in `attach_fds`. -/
def Probe.drop_closes (p : ProbeState) : List Nat :=
  (p.attach_fds.map Prod.snd).flatten

end BpfApi

namespace BpfApi

/-! # Theorems -/

/-- C1 counterexample: in the wrap case the code adds one. At the state
(cons = 2, prod = 1, capacity = 4) the claim's formula gives
`capacity - cons + prod = 3`, but `RingMeta::len` returns 4. -/
theorem len_wrap_claim_counterexample :
    ¬ RingMeta.len ⟨2, 1, 4⟩ = 4 - 2 + 1 := by
  decide

/-- C1 (amended): for every metadata state with the consumer position within
capacity (so the Rust `usize` subtraction cannot underflow), `len()` returns
producer minus consumer when the consumer does not exceed the producer, and
otherwise capacity minus consumer plus producer PLUS ONE. -/
theorem len_cases (m : RingMeta) (_hc : m.cons_pos ≤ m.capacity) :
    (m.cons_pos ≤ m.prod_pos → m.len = m.prod_pos - m.cons_pos) ∧
    (m.prod_pos < m.cons_pos → m.len = m.capacity - m.cons_pos + m.prod_pos + 1) := by
  unfold RingMeta.len
  constructor
  · intro h
    simp [h]
  · intro h
    rw [if_neg (by omega)]

/-- Witness for `len_cases` at the state (cons = 2, prod = 1, capacity = 4). -/
theorem len_cases_witness : RingMeta.len ⟨2, 1, 4⟩ = 4 - 2 + 1 + 1 :=
  (len_cases ⟨2, 1, 4⟩ (by decide)).2 (by decide)

/-- C2 counterexample: for the input 16535 the claim expects capacity 16384,
but the code computes ceil(16535 / 4096) = 5 pages, rounds up to 8 pages, and
yields 32768 (16384 would not even reach the requested minimum). -/
theorem with_capacity_16535_counterexample :
    ¬ with_capacity_capacity 16535 = some 16384 := by
  decide

/-- C2 (amended): for each of the eight listed inputs, `with_capacity`
computes the smallest multiple of the page size (4096) that is a power of
two of pages and at least the requested minimum — yielding 4096, 4096, 4096,
8192, 8192, 32768, 32768, 65536 respectively (not 16384, 16384, 40960 for
the last three as claimed). -/
theorem with_capacity_rounding (n c : Nat)
    (h : (n, c) ∈ [(1, 4096), (4095, 4096), (4096, 4096), (8191, 8192),
      (8192, 8192), (16535, 32768), (16536, 32768), (40000, 65536)]) :
    with_capacity_capacity n = some c ∧ n ≤ c ∧
      (∃ k, c = PAGE_SIZE * 2 ^ k) ∧
      ∀ j, n ≤ PAGE_SIZE * 2 ^ j → c ≤ PAGE_SIZE * 2 ^ j := by
  have helper : ∀ m k : Nat, (k = 0 ∨ PAGE_SIZE * 2 ^ (k - 1) < m) →
      ∀ j, m ≤ PAGE_SIZE * 2 ^ j → PAGE_SIZE * 2 ^ k ≤ PAGE_SIZE * 2 ^ j := by
    intro m k hk j hj
    rcases le_or_lt k j with hkj | hjk
    · exact Nat.mul_le_mul_left _ (Nat.pow_le_pow_right (by norm_num) hkj)
    · rcases hk with rfl | hlt
      · omega
      · exfalso
        have hj' : j ≤ k - 1 := by omega
        have hle : PAGE_SIZE * 2 ^ j ≤ PAGE_SIZE * 2 ^ (k - 1) :=
          Nat.mul_le_mul_left _ (Nat.pow_le_pow_right (by norm_num) hj')
        omega
  fin_cases h
  · exact ⟨by decide, by decide, ⟨0, by decide⟩,
      by simpa [PAGE_SIZE] using helper 1 0 (Or.inl rfl)⟩
  · exact ⟨by decide, by decide, ⟨0, by decide⟩,
      by simpa [PAGE_SIZE] using helper 4095 0 (Or.inl rfl)⟩
  · exact ⟨by decide, by decide, ⟨0, by decide⟩,
      fun _ hj => hj⟩
  · exact ⟨by decide, by decide, ⟨1, by decide⟩,
      by simpa [PAGE_SIZE] using helper 8191 1 (Or.inr (by decide))⟩
  · exact ⟨by decide, by decide, ⟨1, by decide⟩,
      fun _ hj => hj⟩
  · exact ⟨by decide, by decide, ⟨3, by decide⟩,
      by simpa [PAGE_SIZE] using helper 16535 3 (Or.inr (by decide))⟩
  · exact ⟨by decide, by decide, ⟨3, by decide⟩,
      by simpa [PAGE_SIZE] using helper 16536 3 (Or.inr (by decide))⟩
  · exact ⟨by decide, by decide, ⟨4, by decide⟩,
      by simpa [PAGE_SIZE] using helper 40000 4 (Or.inr (by decide))⟩

/-- Witness for `with_capacity_rounding` at the input 16535. -/
theorem with_capacity_rounding_witness :
    with_capacity_capacity 16535 = some 32768 :=
  (with_capacity_rounding 16535 32768 (by decide)).1

/-- C3 counterexample: the verifier-log buffer `[0xFF]` is not valid UTF-8;
with a diagnostic sink supplied and the load failing, `Program::create`
writes nothing to the sink (strict `std::str::from_utf8`, not a best-effort
decode), so the diagnostics are dropped. -/
theorem create_drops_invalid_utf8 :
    (Program.create (-1) [0xFF] true).2 = none ∧ utf8Valid [0xFF] = false := by
  decide

/-- C3 (amended): whether the kernel accepts or rejects the load, if a
diagnostic sink was supplied AND the log buffer's bytes are valid UTF-8,
they are written to the sink; if the bytes are malformed, the diagnostics
are silently dropped (the call's outcome is unaffected either way). -/
theorem create_log_spec (loadResult : Int) (logBuf : List Nat) :
    (Program.create loadResult logBuf true).2 =
      (if utf8Valid logBuf then some logBuf else none) ∧
    (Program.create loadResult logBuf false).2 = none ∧
    (Program.create loadResult logBuf true).1 = (Program.create loadResult logBuf false).1 := by
  simp [Program.create]

/-- C10: for every PMU kind name containing '/', `get_pmu_typeid` returns
`InvalidArgument` having read no file, and its result does not depend on the
filesystem at all. -/
theorem get_pmu_typeid_slash (readFile readFile2 : List Char → Except Error (List Char))
    (name : List Char) (h : name.contains '/' = true) :
    get_pmu_typeid readFile name = (.error .invalidArgument, []) ∧
    get_pmu_typeid readFile name = get_pmu_typeid readFile2 name := by
  have h' : '/' ∈ name := by simpa using h
  simp [get_pmu_typeid, h']

/-- Witness for `get_pmu_typeid_slash` at the name "a/b". -/
theorem get_pmu_typeid_slash_witness :
    get_pmu_typeid (fun _ => .ok ['0']) ['a', '/', 'b'] = (.error .invalidArgument, []) :=
  (get_pmu_typeid_slash (fun _ => .ok ['0']) (fun _ => .ok ['1']) ['a', '/', 'b']
    (by decide)).1

/-- C5: with the cache lock healthy, once a region-shape request has
succeeded, a repeat request with the identical shape touches the kernel's
`mmap` not at all (whatever `mmap` would now return), yields the same base
address, and leaves the state unchanged; the two calls together perform at
most one mapping. Instantiating `prot` with `.read` and `.write` gives
`Map::get_map` and `Map::get_map_mut` respectively. -/
theorem get_map_cached (prot : MmapProtection) (f g : MappedArea → Int)
    (m m1 : MapState) (sizeT offset count : Nat) (b n1 : Nat)
    (hpois : m.poisoned = false)
    (hfirst : get_map_generic prot f m sizeT offset count = (m1, .ok b, n1)) :
    get_map_generic prot g m1 sizeT offset count = (m1, .ok b, 0) ∧ n1 ≤ 1 := by
  unfold get_map_generic at hfirst ⊢
  simp only [hpois, Bool.false_eq_true, if_false] at hfirst
  cases hl : assocLookup m.mapped_areas ⟨offset, sizeT * count, prot, MmapFlags.shared⟩ with
  | some buf =>
    rw [hl] at hfirst
    have h3 : m = m1 ∧ (Except.ok buf : Except Error Nat) = .ok b ∧ 0 = n1 := by
      simpa [Prod.ext_iff] using hfirst
    obtain ⟨rfl, hob, rfl⟩ := h3
    have hb : buf = b := by simpa using hob
    subst hb
    simp [hpois, hl]
  | none =>
    rw [hl] at hfirst
    by_cases hm : f ⟨offset, sizeT * count, prot, MmapFlags.shared⟩ = MAP_FAILED
    · rw [if_pos hm] at hfirst
      exact absurd hfirst (by simp [Prod.ext_iff])
    · rw [if_neg hm] at hfirst
      have h3 : (⟨m.fd, false,
            (⟨offset, sizeT * count, prot, MmapFlags.shared⟩,
              usizeOfIsize (f ⟨offset, sizeT * count, prot, MmapFlags.shared⟩)) ::
            m.mapped_areas⟩ : MapState) = m1 ∧
          (Except.ok (usizeOfIsize (f ⟨offset, sizeT * count, prot, MmapFlags.shared⟩)) :
            Except Error Nat) = .ok b ∧ 1 = n1 := by
        simpa [Prod.ext_iff] using hfirst
      obtain ⟨hm1, hob, rfl⟩ := h3
      have hb : usizeOfIsize (f ⟨offset, sizeT * count, prot, MmapFlags.shared⟩) = b := by
        simpa using hob
      subst hm1
      simp [hpois, assocLookup, hb]

/-- Witness for `get_map_cached`: a fresh map, one successful mapping at
address 1000, then a repeat request (with an `mmap` oracle that would now
return 2000) served from the cache. -/
theorem get_map_cached_witness :
    Map.get_map (fun _ => 2000)
      ⟨3, false, [(⟨0, 4096, .read, .shared⟩, 1000)]⟩ 1 0 4096 =
      (⟨3, false, [(⟨0, 4096, .read, .shared⟩, 1000)]⟩, .ok 1000, 0) ∧ (1 : Nat) ≤ 1 :=
  get_map_cached .read (fun _ => 1000) (fun _ => 2000) ⟨3, false, []⟩
    ⟨3, false, [(⟨0, 4096, .read, .shared⟩, 1000)]⟩ 1 0 4096 1000 1 rfl rfl

/-- C7: for every record that fits, the gateway builds exactly the
120-byte kernel buffer — record bytes in the prefix, zeros after — and
`call_bpf` fails precisely on a negative raw result, carrying that code in
`SystemError`; a non-negative (u32-representable) result is returned
unchanged. -/
theorem call_bpf_spec (syscall : List Nat → Int) (attr : List Nat)
    (hlen : attr.length ≤ BPF_ATTR_SIZE) :
    bpf_syscall_buffer attr = some (attr ++ List.replicate (BPF_ATTR_SIZE - attr.length) 0) ∧
    (attr ++ List.replicate (BPF_ATTR_SIZE - attr.length) 0).length = BPF_ATTR_SIZE ∧
    (attr ++ List.replicate (BPF_ATTR_SIZE - attr.length) 0).take attr.length = attr ∧
    (attr ++ List.replicate (BPF_ATTR_SIZE - attr.length) 0).drop attr.length =
      List.replicate (BPF_ATTR_SIZE - attr.length) 0 ∧
    ∀ r : Int, syscall (attr ++ List.replicate (BPF_ATTR_SIZE - attr.length) 0) = r →
      (r < 0 → call_bpf syscall attr = some (.error (.systemError r))) ∧
      (0 ≤ r → r < 2 ^ 32 → call_bpf syscall attr = some (.ok r.toNat)) := by
  have hbuf : bpf_syscall_buffer attr =
      some (attr ++ List.replicate (BPF_ATTR_SIZE - attr.length) 0) := by
    unfold bpf_syscall_buffer
    rw [if_neg (by omega)]
  refine ⟨hbuf, ?_, ?_, ?_, ?_⟩
  · simp [BPF_ATTR_SIZE] at hlen ⊢
    omega
  · simp
  · simp
  · intro r hr
    constructor
    · intro hneg
      simp [call_bpf, bpf, hbuf, hr, hneg]
    · intro hpos hlt
      simp [call_bpf, bpf, hbuf, hr, Int.not_lt.2 hpos]
      omega

/-- Witness for `call_bpf_spec` at the record [1, 2, 3] with a syscall
oracle returning 5. -/
theorem call_bpf_spec_witness :
    call_bpf (fun _ => 5) [1, 2, 3] = some (.ok 5) :=
  ((call_bpf_spec (fun _ => 5) [1, 2, 3] (by decide)).2.2.2.2 5 rfl).2 (by decide) (by decide)

/-- C9: the four attribute records the crate routes through `call_bpf`
(`MapAttr`, `MapOperationAttr`, `BpfProgramAttr`,
`BpfRawTracepointOpenAttr`) have repr(C, align(8)) sizes 16, 32, 112 and 16
bytes — all at most `BPF_ATTR_SIZE = 120` — so the gateway's panic branch,
taken exactly when a record exceeds 120 bytes, is unreachable through the
public interface. -/
theorem bpf_attr_sizes :
    sizeOfMapAttr = 16 ∧ sizeOfMapOperationAttr = 32 ∧ sizeOfBpfProgramAttr = 112 ∧
    sizeOfBpfRawTracepointOpenAttr = 16 ∧
    sizeOfMapAttr ≤ BPF_ATTR_SIZE ∧ sizeOfMapOperationAttr ≤ BPF_ATTR_SIZE ∧
    sizeOfBpfProgramAttr ≤ BPF_ATTR_SIZE ∧ sizeOfBpfRawTracepointOpenAttr ≤ BPF_ATTR_SIZE ∧
    (∀ (syscall : List Nat → Int) (attr : List Nat), attr.length ≤ BPF_ATTR_SIZE →
      bpf syscall attr =
        some (syscall (attr ++ List.replicate (BPF_ATTR_SIZE - attr.length) 0))) ∧
    (∀ (syscall : List Nat → Int) (attr : List Nat), BPF_ATTR_SIZE < attr.length →
      bpf syscall attr = none) := by
  refine ⟨by decide, by decide, by decide, by decide, by decide, by decide, by decide,
    by decide, ?_, ?_⟩
  · intro s a h
    unfold bpf bpf_syscall_buffer
    rw [if_neg (by omega)]
    rfl
  · intro s a h
    unfold bpf bpf_syscall_buffer
    rw [if_pos (by omega)]
    rfl

/-- Witness for `bpf_attr_sizes`: a 112-byte record (the size of
`BpfProgramAttr`) does not panic and reaches the syscall. -/
theorem bpf_attr_sizes_witness :
    bpf (fun _ => 3) (List.replicate 112 0) = some 3 :=
  bpf_attr_sizes.2.2.2.2.2.2.2.2.1 (fun _ => 3) (List.replicate 112 0) (by decide)

/-- Reading back a written u32 gives the value modulo `2 ^ 32`. -/
theorem readU32LE_writeU32LE (v : Nat) (bs : List Nat) :
    readU32LE (writeU32LE v bs) = v % 2 ^ 32 := by
  simp only [writeU32LE, readU32LE]
  omega

/-- Rewriting a page's current position leaves its first four bytes (and
hence the page) unchanged, provided they are genuine bytes. -/
theorem writeU32LE_readU32LE (b0 b1 b2 b3 : Nat) (rest : List Nat)
    (h0 : b0 < 256) (h1 : b1 < 256) (h2 : b2 < 256) (h3 : b3 < 256) :
    writeU32LE (readU32LE (b0 :: b1 :: b2 :: b3 :: rest)) (b0 :: b1 :: b2 :: b3 :: rest) =
      b0 :: b1 :: b2 :: b3 :: rest := by
  simp only [writeU32LE, readU32LE, List.drop_succ_cons, List.drop_zero, List.cons.injEq]
  refine ⟨by omega, by omega, by omega, by omega, trivial⟩

/-- The position `RingMeta::consume` returns. -/
theorem RingMeta.consume_pos (m : RingMeta) (size : Nat) :
    (m.consume size).2 = (m.cons_pos + min size m.len) % m.capacity := by
  unfold RingMeta.consume
  have hmin : (if size > m.len then m.len else size) = min size m.len := by
    split <;> omega
  simp [hmin]

/-- C6 counterexample: from the wrapped state (cons = 2, prod = 0,
capacity = 4) — where the code's `len()` reports 3 — consuming everything
moves the consumer position to 1, strictly past the producer position 0,
after which `len()` reports 4 = capacity: the consumer has overtaken the
producer instead of stopping at it. -/
theorem consume_overtakes_producer_counterexample :
    (RingBufferState.consume ⟨4, [2, 0, 0, 0], [0, 0, 0, 0]⟩ 10).consPage = [1, 0, 0, 0] ∧
    readU32LE (RingBufferState.consume ⟨4, [2, 0, 0, 0], [0, 0, 0, 0]⟩ 10).consPage = 1 ∧
    readU32LE ((⟨4, [2, 0, 0, 0], [0, 0, 0, 0]⟩ : RingBufferState)).prodPage = 0 ∧
    (RingBufferState.consume ⟨4, [2, 0, 0, 0], [0, 0, 0, 0]⟩ 10).len = 4 := by
  decide

/-- C6 (amended): `consume(size)` writes
`(cons_pos + min size len()) % capacity` — and nothing else — into the
first four bytes of the writable consumer-position mapping as a fixed-width
little-endian (native on x86_64) u32; on an empty ring buffer (`len() = 0`,
consumer position within capacity) consume is a no-op; and when the consumer
position does not exceed the producer position (both within capacity) the
consumer never advances past the producer. In a wrapped state
(cons > prod) the consumer can advance to one past the producer position. -/
theorem consume_spec (st : RingBufferState) (size b0 b1 b2 b3 : Nat) (rest : List Nat)
    (hpage : st.consPage = b0 :: b1 :: b2 :: b3 :: rest)
    (h0 : b0 < 256) (h1 : b1 < 256) (h2 : b2 < 256) (h3 : b3 < 256)
    (hcap : 0 < st.capacity) (hcap32 : st.capacity ≤ 2 ^ 32) :
    readU32LE (st.consume size).consPage =
      (st.get_meta.cons_pos + min size st.get_meta.len) % st.capacity ∧
    (st.consume size).consPage.drop 4 = rest ∧
    (st.consume size).prodPage = st.prodPage ∧
    (st.consume size).capacity = st.capacity ∧
    (st.get_meta.len = 0 → st.get_meta.cons_pos < st.capacity →
      (st.consume size).consPage = st.consPage) ∧
    (st.get_meta.cons_pos ≤ st.get_meta.prod_pos → st.get_meta.prod_pos < st.capacity →
      readU32LE (st.consume size).consPage ≤ st.get_meta.prod_pos) := by
  obtain ⟨capacity, consPage, prodPage⟩ := st
  simp only at hpage
  subst hpage
  simp only at hcap hcap32
  have hconsume : ∀ sz : Nat,
      (RingBufferState.consume ⟨capacity, b0 :: b1 :: b2 :: b3 :: rest, prodPage⟩ sz) =
        ⟨capacity,
         writeU32LE (((⟨capacity, b0 :: b1 :: b2 :: b3 :: rest, prodPage⟩ :
            RingBufferState).get_meta.consume sz).2) (b0 :: b1 :: b2 :: b3 :: rest),
         prodPage⟩ := fun _ => rfl
  set m : RingMeta := (⟨capacity, b0 :: b1 :: b2 :: b3 :: rest, prodPage⟩ :
    RingBufferState).get_meta with hm
  have hcons : m.cons_pos = readU32LE (b0 :: b1 :: b2 :: b3 :: rest) := rfl
  have hcapm : m.capacity = capacity := rfl
  have hnew : (m.consume size).2 = (m.cons_pos + min size m.len) % capacity := by
    rw [RingMeta.consume_pos, hcapm]
  have hmod : (m.cons_pos + min size m.len) % capacity < 2 ^ 32 :=
    lt_of_lt_of_le (Nat.mod_lt _ hcap) hcap32
  refine ⟨?_, ?_, ?_, ?_, ?_, ?_⟩
  · rw [hconsume]
    simp only [readU32LE_writeU32LE, hnew]
    exact Nat.mod_eq_of_lt hmod
  · rw [hconsume]
    simp [writeU32LE]
  · rw [hconsume]
  · rw [hconsume]
  · intro hlen hcp
    rw [hconsume]
    have hz : (m.consume size).2 = m.cons_pos := by
      rw [hnew, hlen]
      simp only [Nat.min_zero]
      exact Nat.mod_eq_of_lt (by rw [← hcapm]; exact hcp)
    rw [hz, hcons]
    exact writeU32LE_readU32LE b0 b1 b2 b3 rest h0 h1 h2 h3
  · intro hle hpr
    rw [hconsume]
    simp only [readU32LE_writeU32LE, hnew]
    have hlen : m.len = m.prod_pos - m.cons_pos := by
      unfold RingMeta.len
      rw [if_pos hle]
    have hb : m.cons_pos + min size m.len ≤ m.prod_pos := by
      rw [hlen]; omega
    have hsmall : m.cons_pos + min size m.len < capacity := by
      have : m.prod_pos < capacity := by rw [← hcapm]; exact hpr
      omega
    rw [Nat.mod_eq_of_lt hsmall, Nat.mod_eq_of_lt (lt_of_lt_of_le hsmall hcap32)]
    exact hb

/-- Witness for `consume_spec` at a concrete readable state: capacity 4096,
consumer position 5, producer position 7, consuming 2 bytes. -/
theorem consume_spec_witness :
    readU32LE ((⟨4096, [5, 0, 0, 0], [7, 0, 0, 0]⟩ : RingBufferState).consume 2).consPage =
      ((⟨4096, [5, 0, 0, 0], [7, 0, 0, 0]⟩ : RingBufferState).get_meta.cons_pos +
        min 2 (⟨4096, [5, 0, 0, 0], [7, 0, 0, 0]⟩ : RingBufferState).get_meta.len) % 4096 :=
  (consume_spec ⟨4096, [5, 0, 0, 0], [7, 0, 0, 0]⟩ 2 5 0 0 0 [] rfl
    (by decide) (by decide) (by decide) (by decide) (by decide) (by decide)).1

/-- A successful per-CPU open loop yields one descriptor per processor. -/
theorem openLoop_ok_length (openRes : Nat → Int) :
    ∀ (n first : Nat) (fds : List Nat),
      openLoop openRes first n = .ok fds → fds.length = n := by
  intro n
  induction n with
  | zero =>
    intro first fds h
    simp [openLoop] at h
    simp [← h]
  | succ k ih =>
    intro first fds h
    unfold openLoop at h
    split at h
    · exact absurd h (by simp)
    · cases hrec : openLoop openRes (first + 1) k with
      | error e => rw [hrec] at h; simp [Except.map] at h
      | ok rest =>
        rw [hrec] at h
        simp [Except.map] at h
        rw [← h]
        simp [ih (first + 1) rest hrec]

/-- A fully successful attach/enable loop returns exactly the descriptors it
was handed. -/
theorem attachEnableLoop_ok (attachRes enableRes : Nat → Int) :
    ∀ (l : List Nat) (tr : List PerfCall) (fds : List Nat),
      attachEnableLoop attachRes enableRes l = (tr, .ok fds) → fds = l := by
  intro l
  induction l with
  | nil =>
    intro tr fds h
    simp [attachEnableLoop] at h
    simp [← h.2]
  | cons fd rest ih =>
    intro tr fds h
    unfold attachEnableLoop at h
    split at h
    · exact absurd h (by simp [Prod.ext_iff])
    · split at h
      · exact absurd h (by simp [Prod.ext_iff])
      · rcases hrec : attachEnableLoop attachRes enableRes rest with ⟨tr', r⟩
        rw [hrec] at h
        cases r with
        | error e => simp [Except.map, Prod.ext_iff] at h
        | ok fds' =>
          simp [Except.map, Prod.ext_iff] at h
          rw [← h.2, ih tr' fds' hrec]

/-- Lookup after `HashMap::insert` finds the inserted value. -/
theorem assocLookup_insertFds (k : Nat) (v : List Nat) (l : List (Nat × List Nat)) :
    assocLookup (insertFds k v l) k = some v := by
  simp [insertFds, assocLookup]

/-- C8: a successful RawTracepoint attach records exactly one event
descriptor for the attaching program; a successful KProbe/UProbe attach
records exactly one descriptor per available processor. -/
theorem attach_descriptor_counts :
    (∀ (p : ProbeState) (prog_fd : Nat) (callRes : Int),
      (Probe.attach_raw_tracepoint p prog_fd callRes).2 = .ok () →
      (assocLookup (Probe.attach_raw_tracepoint p prog_fd callRes).1.attach_fds
        prog_fd).map List.length = some 1) ∧
    (∀ (p : ProbeState) (prog_fd : Nat)
      (readFile : List Char → Except Error (List Char)) (kind : List Char)
      (ncpus : Nat) (openRes attachRes enableRes : Nat → Int),
      (Probe.attach_probe p prog_fd readFile kind ncpus openRes attachRes enableRes).2.1 =
        .ok () →
      (assocLookup
        (Probe.attach_probe p prog_fd readFile kind ncpus openRes attachRes enableRes).1.attach_fds
        prog_fd).map List.length = some ncpus) := by
  constructor
  · intro p prog_fd callRes h
    unfold Probe.attach_raw_tracepoint at h ⊢
    by_cases hc : callRes < 0
    · rw [if_pos hc] at h
      simp at h
    · simp [hc, assocLookup_insertFds]
  · intro p prog_fd readFile kind ncpus openRes attachRes enableRes h
    unfold Probe.attach_probe at h ⊢
    cases hopen : perf_event_open_by_name readFile kind ncpus openRes with
    | error e =>
      rw [hopen] at h
      simp at h
    | ok fds0 =>
      rw [hopen] at h
      have hlen0 : fds0.length = ncpus := by
        unfold perf_event_open_by_name at hopen
        cases htid : (get_pmu_typeid readFile kind).1 with
        | error e => rw [htid] at hopen; simp at hopen
        | ok tid =>
          rw [htid] at hopen
          exact openLoop_ok_length openRes ncpus 0 fds0 hopen
      dsimp only at h ⊢
      rcases hloop : attachEnableLoop attachRes enableRes fds0 with ⟨tr, r⟩
      rw [hloop] at h
      cases r with
      | error e => simp at h
      | ok fds =>
        dsimp only at h ⊢
        rw [assocLookup_insertFds]
        rw [attachEnableLoop_ok attachRes enableRes fds0 tr fds hloop]
        simp [hlen0]

/-- Witness for `attach_descriptor_counts`: a raw-tracepoint attach whose
`BPF_RAW_TRACEPOINT_OPEN` call returned descriptor 5 records a
single-descriptor list. -/
theorem attach_descriptor_counts_witness :
    (assocLookup (Probe.attach_raw_tracepoint ⟨[]⟩ 7 5).1.attach_fds 7).map List.length =
      some 1 :=
  attach_descriptor_counts.1 ⟨[]⟩ 7 5 rfl

/-- C4 counterexample: two processors, both opens succeed (descriptors 3
and 4), then the attach phase fails on descriptor 3. `attach_probe` aborts
with the error after the single failing attach call — but the probe's
descriptor table is left exactly as it was, so the destructor path closes
nothing: descriptors 3 and 4, opened during the failed attempt, are never
closed by the Probe. -/
theorem attach_probe_leak_counterexample :
    Probe.attach_probe ⟨[]⟩ 7 (fun _ => .ok ['6']) ['k', 'p', 'r', 'o', 'b', 'e'] 2
        (fun i => 3 + (i : Int)) (fun fd => if fd = 3 then -1 else 0) (fun _ => 0) =
      (⟨[]⟩, .error (.systemError (-1)), [.attachCall 3], [3, 4]) ∧
    Probe.drop_closes ⟨[]⟩ = [] :=
  ⟨rfl, rfl⟩

/-- C4 (amended): when attaching a KProbe or UProbe, each opened descriptor
goes through attach-then-enable; the first failure of either phase aborts
the loop immediately (no kernel call concerns any later descriptor) and the
attach returns that error — but the descriptors opened during the failed
attempt are NOT recorded in the probe's table, which is left unchanged, so
the destructor path closes none of them (it closes only descriptors from
earlier successful attaches). -/
theorem attach_probe_failure_spec :
    (∀ (p : ProbeState) (prog_fd : Nat)
      (readFile : List Char → Except Error (List Char)) (kind : List Char)
      (ncpus : Nat) (openRes attachRes enableRes : Nat → Int) (e : Error),
      (Probe.attach_probe p prog_fd readFile kind ncpus openRes attachRes enableRes).2.1 =
        .error e →
      (Probe.attach_probe p prog_fd readFile kind ncpus openRes attachRes enableRes).1 = p ∧
      Probe.drop_closes
        (Probe.attach_probe p prog_fd readFile kind ncpus openRes attachRes enableRes).1 =
        Probe.drop_closes p) ∧
    (∀ (attachRes enableRes : Nat → Int) (pre : List Nat) (fd : Nat) (suf : List Nat),
      (∀ f ∈ pre, attachRes f = 0 ∧ enableRes f = 0) → attachRes fd ≠ 0 →
      attachEnableLoop attachRes enableRes (pre ++ fd :: suf) =
        (okTrace pre ++ [.attachCall fd], .error (.systemError (attachRes fd)))) ∧
    (∀ (attachRes enableRes : Nat → Int) (pre : List Nat) (fd : Nat) (suf : List Nat),
      (∀ f ∈ pre, attachRes f = 0 ∧ enableRes f = 0) → attachRes fd = 0 → enableRes fd ≠ 0 →
      attachEnableLoop attachRes enableRes (pre ++ fd :: suf) =
        (okTrace pre ++ [.attachCall fd, .enableCall fd],
         .error (.systemError (enableRes fd)))) := by
  refine ⟨?_, ?_, ?_⟩
  · intro p prog_fd readFile kind ncpus openRes attachRes enableRes e h
    unfold Probe.attach_probe at h ⊢
    cases hopen : perf_event_open_by_name readFile kind ncpus openRes with
    | error e' => simp
    | ok fds0 =>
      rw [hopen] at h
      dsimp only at h ⊢
      rcases hloop : attachEnableLoop attachRes enableRes fds0 with ⟨tr, r⟩
      rw [hloop] at h
      cases r with
      | error e' => simp
      | ok fds => simp at h
  · intro attachRes enableRes pre fd suf hpre hfd
    induction pre with
    | nil =>
      simp only [List.nil_append, okTrace, List.nil_append]
      unfold attachEnableLoop
      rw [if_pos hfd]
    | cons f rest ih =>
      have hf := hpre f (by simp)
      have hrest : ∀ g ∈ rest, attachRes g = 0 ∧ enableRes g = 0 := fun g hg =>
        hpre g (by simp [hg])
      simp only [List.cons_append, okTrace]
      unfold attachEnableLoop
      rw [if_neg (by simp [hf.1]), if_neg (by simp [hf.2]), ih hrest]
      rfl
  · intro attachRes enableRes pre fd suf hpre hfd1 hfd2
    induction pre with
    | nil =>
      simp only [List.nil_append, okTrace, List.nil_append]
      unfold attachEnableLoop
      rw [if_neg (by simp [hfd1]), if_pos hfd2]
    | cons f rest ih =>
      have hf := hpre f (by simp)
      have hrest : ∀ g ∈ rest, attachRes g = 0 ∧ enableRes g = 0 := fun g hg =>
        hpre g (by simp [hg])
      simp only [List.cons_append, okTrace]
      unfold attachEnableLoop
      rw [if_neg (by simp [hf.1]), if_neg (by simp [hf.2]), ih hrest]
      rfl

/-- Witness for `attach_probe_failure_spec`: descriptor 3 attaches and
enables fine, then the attach phase fails on descriptor 4: the loop stops
there with the error. -/
theorem attach_probe_failure_spec_witness :
    attachEnableLoop (fun fd => if fd = 4 then -1 else 0) (fun _ => 0) ([3] ++ 4 :: []) =
      (okTrace [3] ++ [.attachCall 4], .error (.systemError (-1))) :=
  attach_probe_failure_spec.2.1 (fun fd => if fd = 4 then -1 else 0) (fun _ => 0)
    [3] 4 [] (by decide) (by decide)

end BpfApi
